import Mathlib

/-!
Verification of the borrg backup orchestrator's repository-address parser and
formatter, compression descriptor, configuration resolver, event decoder and
create-command builder.  Rust strings are modelled as lists of characters,
`PathBuf` as the stored string together with Rust's component-based path
equality, and fallible code as `Except`/`Option`.  JSON numbers are modelled as
exact integers (the claims under study only involve integer-valued fields).
-/

namespace Borrg

abbrev Str := List Char

/-- Test whether `pre` is a prefix of `s` (Rust `str::starts_with`). -/
def hasPre (pre s : Str) : Bool :=
  match pre, s with
  | [], _ => true
  | _ :: _, [] => false
  | p :: ps, c :: cs => p == c && hasPre ps cs

/-- Rust `str::strip_prefix`: remove `pre` from the front of `s` when it is a prefix. -/
def stripPre (pre s : Str) : Option Str :=
  match pre, s with
  | [], s => some s
  | _ :: _, [] => none
  | p :: ps, c :: cs => if p = c then stripPre ps cs else none

/-- Membership of a character in a string (Rust `str::contains(char)`). -/
def hasChar (c : Char) (s : Str) : Bool :=
  match s with
  | [] => false
  | x :: xs => x == c || hasChar c xs

/-- Rust `str::starts_with(char)`. -/
def startsWithChar (c : Char) (s : Str) : Bool :=
  match s with
  | [] => false
  | x :: _ => x == c

/-- Rust `str::split_once(char)`: split at the first occurrence of `sep`. -/
def splitOnce (sep : Char) (s : Str) : Option (Str × Str) :=
  match s with
  | [] => none
  | c :: cs =>
    if c = sep then some ([], cs)
    else match splitOnce sep cs with
      | some (a, b) => some (c :: a, b)
      | none => none

/-- Decimal digits of a natural number, most significant first, accumulated
onto `acc`; structurally recursive on a fuel bound so that it evaluates in the
kernel. -/
def natToStrGo (fuel n : Nat) (acc : Str) : Str :=
  match fuel with
  | 0 => acc
  | fuel + 1 =>
    if n < 10 then Char.ofNat (48 + n % 10) :: acc
    else natToStrGo fuel (n / 10) (Char.ofNat (48 + n % 10) :: acc)

/-- Decimal representation of a natural number (Rust `u16`/integer `Display`). -/
def natToStr (n : Nat) : Str := natToStrGo (n + 1) n []

/-- ASCII digit test on code points. -/
def isDigitCh (c : Char) : Bool := 48 ≤ c.toNat && c.toNat ≤ 57

/-- Numeric value of an ASCII digit character. -/
def digitVal (c : Char) : Nat := c.toNat - 48

/-- Fold a digit string into the natural number it denotes. -/
def foldDigits (s : Str) : Nat := s.foldl (fun a c => a * 10 + digitVal c) 0

/-- Consume the optional leading plus sign accepted by Rust's unsigned integer parsing. -/
def dropPlus (s : Str) : Str :=
  match s with
  | [] => []
  | c :: r => if c = '+' then r else c :: r

/-- Rust `u16::from_str`: optional leading plus sign, nonempty ASCII digits, bound 65535. -/
def parseU16 (s : Str) : Option Nat :=
  let ds := dropPlus s
  if ds.isEmpty then none
  else if ds.all isDigitCh then
    if foldDigits ds ≤ 65535 then some (foldDigits ds) else none
  else none

theorem stripPre_append (pre t : Str) : stripPre pre (pre ++ t) = some t := by
  induction pre with
  | nil => rfl
  | cons p ps ih => simp [stripPre, ih]

theorem stripPre_of_hasPre_false {pre s : Str} (h : hasPre pre s = false) :
    stripPre pre s = none := by
  induction pre generalizing s with
  | nil => simp [hasPre] at h
  | cons p ps ih =>
    cases s with
    | nil => rfl
    | cons c cs =>
      simp [hasPre] at h
      simp only [stripPre]
      by_cases hpc : p = c
      · simp [hpc] at h ⊢
        exact ih h
      · simp [hpc]

theorem hasChar_append (c : Char) (a b : Str) :
    hasChar c (a ++ b) = (hasChar c a || hasChar c b) := by
  induction a with
  | nil => simp [hasChar]
  | cons x xs ih => simp [hasChar, ih, Bool.or_assoc]

theorem splitOnce_of_hasChar_false {sep : Char} {s : Str} (h : hasChar sep s = false) :
    splitOnce sep s = none := by
  induction s with
  | nil => rfl
  | cons c cs ih =>
    simp only [hasChar, Bool.or_eq_false_iff, beq_eq_false_iff_ne, ne_eq] at h
    obtain ⟨h1, h2⟩ := h
    simp [splitOnce, h1, ih h2]

theorem splitOnce_append_cons {sep : Char} {a : Str} (b : Str)
    (h : hasChar sep a = false) : splitOnce sep (a ++ sep :: b) = some (a, b) := by
  induction a with
  | nil => simp [splitOnce]
  | cons x xs ih =>
    simp only [hasChar, Bool.or_eq_false_iff, beq_eq_false_iff_ne, ne_eq] at h
    obtain ⟨h1, h2⟩ := h
    simp [splitOnce, h1, ih h2]

theorem digit_isDigitCh (n : Nat) : isDigitCh (Char.ofNat (48 + n % 10)) = true := by
  have h10 : n % 10 < 10 := Nat.mod_lt _ (by omega)
  have hall : ∀ k, k < 10 → isDigitCh (Char.ofNat (48 + k)) = true := by decide
  exact hall _ h10

theorem natToStrGo_all_digits (fuel : Nat) :
    ∀ (n : Nat) (acc : Str), (∀ c ∈ acc, isDigitCh c = true) →
      ∀ c ∈ natToStrGo fuel n acc, isDigitCh c = true := by
  induction fuel with
  | zero => intro n acc h; exact h
  | succ fuel ih =>
    intro n acc h
    have hcons : ∀ c ∈ Char.ofNat (48 + n % 10) :: acc, isDigitCh c = true := by
      intro c hc
      rcases List.mem_cons.mp hc with h1 | h2
      · exact h1 ▸ digit_isDigitCh n
      · exact h c h2
    unfold natToStrGo
    by_cases hn : n < 10
    · simp only [hn, if_true]
      exact hcons
    · simp only [hn, if_false]
      exact ih _ _ hcons

theorem natToStrGo_ne_nil (fuel : Nat) :
    ∀ (n : Nat) (acc : Str), n < fuel → natToStrGo fuel n acc ≠ [] := by
  induction fuel with
  | zero => intro n acc h; omega
  | succ fuel ih =>
    intro n acc h
    unfold natToStrGo
    by_cases hn : n < 10
    · simp [hn]
    · simp only [hn, if_false]
      exact ih _ _ (by omega)

/-- Helper describing what folding the digits produced by `natToStrAux` computes. -/
def pushNat (a n : Nat) : Nat :=
  if n < 10 then a * 10 + n else pushNat a (n / 10) * 10 + n % 10
termination_by n
decreasing_by
  exact Nat.div_lt_self (by omega) (by omega)

theorem digitVal_ofNat (k : Nat) (h : k < 10) : digitVal (Char.ofNat (48 + k)) = k := by
  revert h
  revert k
  decide

theorem foldl_natToStrGo (fuel : Nat) :
    ∀ (n : Nat) (acc : Str) (a : Nat), n < fuel →
      List.foldl (fun a c => a * 10 + digitVal c) a (natToStrGo fuel n acc) =
        List.foldl (fun a c => a * 10 + digitVal c) (pushNat a n) acc := by
  induction fuel with
  | zero => intro n acc a h; omega
  | succ fuel ih =>
    intro n acc a h
    unfold natToStrGo pushNat
    have h10 : n % 10 < 10 := Nat.mod_lt _ (by omega)
    by_cases hn : n < 10
    · have hmod : n % 10 = n := Nat.mod_eq_of_lt hn
      simp only [hn, if_true, List.foldl_cons]
      rw [digitVal_ofNat _ h10, hmod]
    · simp only [hn, if_false]
      rw [ih (n / 10) _ _ (by omega)]
      simp only [List.foldl_cons]
      rw [digitVal_ofNat _ h10]

theorem pushNat_zero (n : Nat) : pushNat 0 n = n := by
  induction n using Nat.strong_induction_on with
  | _ n ih =>
    unfold pushNat
    by_cases hn : n < 10
    · simp [hn]
    · simp only [hn, if_false]
      rw [ih (n / 10) (Nat.div_lt_self (by omega) (by omega))]
      omega

theorem foldDigits_natToStr (n : Nat) : foldDigits (natToStr n) = n := by
  unfold foldDigits natToStr
  rw [foldl_natToStrGo _ _ _ _ (by omega)]
  simp [pushNat_zero]

theorem parseU16_natToStr (n : Nat) (h : n ≤ 65535) : parseU16 (natToStr n) = some n := by
  have hne := natToStrGo_ne_nil (n + 1) n [] (by omega)
  have hdig := natToStrGo_all_digits (n + 1) n [] (by intro c hc; cases hc)
  unfold natToStr at hne hdig ⊢
  rcases hx : natToStrGo (n + 1) n [] with _ | ⟨c, rest⟩
  · exact absurd hx hne
  · have hcdig : isDigitCh c = true := by
      rw [hx] at hdig
      exact hdig c (List.mem_cons_self _ _)
    have hcne : ¬(c = '+') := by
      intro hcp
      rw [hcp] at hcdig
      simp [isDigitCh] at hcdig
    unfold parseU16
    have hmatch : dropPlus (c :: rest) = c :: rest := by
      simp [dropPlus, hcne]
    simp only [hmatch]
    have hall : (c :: rest).all isDigitCh = true := by
      rw [List.all_eq_true]
      intro x hxm
      rw [hx] at hdig
      exact hdig x hxm
    have hfold : foldDigits (c :: rest) = n := by
      have := foldDigits_natToStr n
      unfold natToStr at this
      rw [hx] at this
      exact this
    simp [hall, hfold, h]

/-! Path model.  A Rust `PathBuf` is the stored string; `Display` prints it
verbatim; `PartialEq` compares the normalized component lists, mirroring
`std::path::Path` on Unix. -/

/-- One normalized path component (Unix): root, leading `.`, `..`, or a name. -/
inductive PComp
  | root
  | cur
  | up
  | seg (s : Str)
deriving DecidableEq

/-- Classify one raw segment; empty and interior `.` segments are dropped. -/
def segComp (s : Str) : Option PComp :=
  if s = [] then none
  else if s = ['.'] then none
  else if s = ['.', '.'] then some .up
  else some (.seg s)

/-- Split a string at every occurrence of `sep`, keeping empty segments. -/
def splitAllAux (sep : Char) : Str → Str → List Str
  | [], cur => [cur.reverse]
  | c :: cs, cur =>
    if c = sep then cur.reverse :: splitAllAux sep cs []
    else splitAllAux sep cs (c :: cur)

/-- Split a string at every occurrence of `sep`. -/
def splitAll (sep : Char) (s : Str) : List Str := splitAllAux sep s []

/-- Normalized component list of a path, as compared by Rust `Path::eq` on Unix. -/
def components (p : Str) : List PComp :=
  (if startsWithChar '/' p then [PComp.root]
   else match splitAll '/' p with
     | s :: _ => if s = ['.'] then [PComp.cur] else []
     | [] => []) ++
  (splitAll '/' p).filterMap segComp

/-- Rust `PathBuf` equality (component-wise). -/
def pathEq (p q : Str) : Prop := components p = components q

instance (p q : Str) : Decidable (pathEq p q) := by
  unfold pathEq
  infer_instance

/-- Rust `Path::is_absolute` on Unix. -/
def pathIsAbsolute (p : Str) : Bool := startsWithChar '/' p

/-- Rust `PathBuf::from("/").flatten(p)`: an absolute `p` replaces the root. -/
def rootJoin (p : Str) : Str := if pathIsAbsolute p then p else '/' :: p

/-- Rust `Path::join`: an absolute right side replaces; else concatenate with a
separator unless the left side is empty or already ends with one. -/
def pathJoin (a b : Str) : Str :=
  if pathIsAbsolute b then b
  else if a = [] then b
  else if a.getLast? = some '/' then a ++ b
  else a ++ '/' :: b

/-- Remainder of `p` after the `~/` prefix, as `Path::strip_prefix("~/")`
computes it (component based, so redundant separators are consumed). -/
def stripTilde (p : Str) : Option Str :=
  match p with
  | '~' :: rest =>
    if startsWithChar '/' rest then some (rest.dropWhile (fun c => c = '/')) else none
  | _ => none

/-- Modelled from `src/util.rs` `resolve_path`; the home directory, obtained
from the environment in the source, is passed as a parameter. -/
def resolvePath (home : Str) (p : Str) : Str :=
  if components p = components "~".data then home
  else match stripTilde p with
    | some rest => pathJoin home rest
    | none => p

/-! Repository specifier (`src/borrg/repo.rs`). -/

/-- Passphrase delivery variants (`src/borrg.rs`). -/
inductive Passphrase
  | pass (s : Str)
  | command (s : Str)
  | fd (n : Int)
deriving DecidableEq

/-- Remote part of an `ssh://` repository specifier. -/
structure Remote where
  user : Option Str
  host : Str
  port : Option Nat
deriving DecidableEq

/-- A parsed repository specifier (`Repo` in `src/borrg/repo.rs`). -/
structure Repo where
  remote : Option Remote
  path : Str
  passphrase : Option Passphrase
deriving DecidableEq

/-- Rust `impl PartialEq for Repo`: path and remote only, passphrase ignored;
paths compare by components. -/
def repoEq (a b : Repo) : Prop := pathEq a.path b.path ∧ a.remote = b.remote

instance (a b : Repo) : Decidable (repoEq a b) := by
  unfold repoEq
  infer_instance

/-- Rust `impl FromStr for Remote`: split off the user at the first `@`, then
the port at the first `:` of the rest. -/
def parseRemote (s : Str) : Except String Remote :=
  let (user, rest) :=
    match splitOnce '@' s with
    | some (u, h) => (some u, h)
    | none => (none, s)
  match splitOnce ':' rest with
  | some (h, p) =>
    match parseU16 p with
    | some port => .ok ⟨user, h, some port⟩
    | none => .error "Invalid remote: Failed to parse port"
  | none => .ok ⟨user, rest, none⟩

/-- Rust `impl FromStr for Repo` (`Repo::from_str`): `file://`, `ssh://`, the
deprecated legacy `remote:path` syntax, then plain local paths. -/
def repoFromStr (s : Str) : Except String Repo :=
  match stripPre "file://".data s with
  | some path => .ok ⟨none, path, none⟩
  | none =>
  match stripPre "ssh://".data s with
  | some repo =>
    match splitOnce '/' repo with
    | none => .error "Invalid repository specifier (No \"/\" after \"ssh://\")"
    | some (remote, path) =>
      match parseRemote remote with
      | .error e => .error e
      | .ok rem =>
        if !startsWithChar '.' path && !startsWithChar '~' path then
          .ok ⟨some rem, rootJoin path, none⟩
        else
          .ok ⟨some rem, path, none⟩
  | none =>
  match splitOnce ':' s with
  | some (remote, path) =>
    match parseRemote remote with
    | .error e => .error e
    | .ok rem => .ok ⟨some rem, path, none⟩
  | none => .ok ⟨none, s, none⟩

/-- Rust `impl Display for Remote`. -/
def fmtRemote (r : Remote) : Str :=
  (match r.user with
    | some u => u ++ ['@']
    | none => []) ++
  r.host ++
  (match r.port with
    | some p => ':' :: natToStr p
    | none => [])

/-- Rust `impl Display for Repo`: `ssh://<remote>` plus a `/` separator only
for relative-looking paths, else the bare path. -/
def repoFmt (r : Repo) : Str :=
  match r.remote with
  | some rem =>
    "ssh://".data ++ fmtRemote rem ++
      (if pathIsAbsolute r.path then [] else ['/']) ++ r.path
  | none => r.path

/-! Round-trip analysis for the repository specifier. -/

/-- Conditions under which a `Remote` survives format-then-parse. -/
def remoteOk (r : Remote) : Bool :=
  !(hasChar '/' r.host) && !(hasChar ':' r.host) && !(hasChar '@' r.host) &&
  (match r.user with
    | none => true
    | some u => !(hasChar '/' u) && !(hasChar '@' u)) &&
  (match r.port with
    | none => true
    | some p => decide (p ≤ 65535))

/-- Conditions under which a parsed `Repo` survives format-then-parse: no
scheme-like or colon-bearing local path, a well-behaved remote, and a remote
path that re-splits unambiguously. -/
def goodRepo (r : Repo) : Bool :=
  match r.remote with
  | none =>
    !(hasPre "file://".data r.path) && !(hasPre "ssh://".data r.path) &&
      !(hasChar ':' r.path)
  | some rem =>
    remoteOk rem &&
      (if pathIsAbsolute r.path then
        !(startsWithChar '.' (r.path.drop 1)) && !(startsWithChar '~' (r.path.drop 1))
      else startsWithChar '.' r.path || startsWithChar '~' r.path)

theorem hasPre_append_self (pre t : Str) : hasPre pre (pre ++ t) = true := by
  induction pre with
  | nil => rfl
  | cons p ps ih => simp [hasPre, ih]

theorem hasChar_false_of_forall {c : Char} {s : Str} (h : ∀ x ∈ s, ¬(x = c)) :
    hasChar c s = false := by
  induction s with
  | nil => rfl
  | cons x xs ih =>
    simp [hasChar, h x (List.mem_cons_self x xs),
      ih (fun y hy => h y (List.mem_cons_of_mem _ hy))]

theorem natToStr_hasChar_false (n : Nat) (c : Char)
    (hc : c.toNat < 48 ∨ 57 < c.toNat) : hasChar c (natToStr n) = false := by
  apply hasChar_false_of_forall
  intro x hx
  have hd := natToStrGo_all_digits (n + 1) n [] (by intro a ha; cases ha) x hx
  simp only [isDigitCh, Bool.and_eq_true, decide_eq_true_eq] at hd
  intro hxc
  subst hxc
  rcases hc with hc | hc <;> omega

theorem fmtRemote_no_slash {rem : Remote} (h : remoteOk rem = true) :
    hasChar '/' (fmtRemote rem) = false := by
  obtain ⟨ou, host, op⟩ := rem
  have hns : ∀ p, hasChar '/' (natToStr p) = false :=
    fun p => natToStr_hasChar_false p '/' (Or.inl (by decide))
  cases ou <;> cases op <;>
    simp_all [remoteOk, fmtRemote, hasChar_append, hasChar, hns]

theorem parseRemote_fmtRemote {rem : Remote} (h : remoteOk rem = true) :
    parseRemote (fmtRemote rem) = .ok rem := by
  obtain ⟨ou, host, op⟩ := rem
  have hdg : ∀ (c : Char) p, c.toNat < 48 ∨ 57 < c.toNat →
      hasChar c (natToStr p) = false :=
    fun c p hc => natToStr_hasChar_false p c hc
  cases ou with
  | none =>
    cases op with
    | none =>
      simp only [remoteOk, Bool.and_eq_true, Bool.not_eq_true'] at h
      obtain ⟨⟨⟨⟨hh1, hh2⟩, hh3⟩, -⟩, -⟩ := h
      simp only [fmtRemote, List.nil_append, List.append_nil]
      simp only [parseRemote, splitOnce_of_hasChar_false hh3,
        splitOnce_of_hasChar_false hh2]
    | some p =>
      simp only [remoteOk, Bool.and_eq_true, Bool.not_eq_true', decide_eq_true_eq] at h
      obtain ⟨⟨⟨⟨hh1, hh2⟩, hh3⟩, -⟩, hple⟩ := h
      simp only [fmtRemote, List.nil_append]
      have hna : hasChar '@' (host ++ ':' :: natToStr p) = false := by
        rw [hasChar_append]
        simp [hasChar, hh3, hdg '@' p (Or.inr (by decide))]
      simp only [parseRemote, splitOnce_of_hasChar_false hna,
        splitOnce_append_cons (natToStr p) hh2, parseU16_natToStr p hple]
  | some u =>
    cases op with
    | none =>
      simp only [remoteOk, Bool.and_eq_true, Bool.not_eq_true'] at h
      obtain ⟨⟨⟨⟨hh1, hh2⟩, hh3⟩, ⟨hu1, hu2⟩⟩, -⟩ := h
      simp only [fmtRemote, List.append_nil, List.append_assoc, List.singleton_append,
        List.cons_append, List.nil_append]
      simp only [parseRemote, splitOnce_append_cons host hu2,
        splitOnce_of_hasChar_false hh2]
    | some p =>
      simp only [remoteOk, Bool.and_eq_true, Bool.not_eq_true', decide_eq_true_eq] at h
      obtain ⟨⟨⟨⟨hh1, hh2⟩, hh3⟩, ⟨hu1, hu2⟩⟩, hple⟩ := h
      simp only [fmtRemote, List.append_assoc, List.singleton_append, List.cons_append,
        List.nil_append]
      simp only [parseRemote, splitOnce_append_cons (host ++ ':' :: natToStr p) hu2,
        splitOnce_append_cons (natToStr p) hh2, parseU16_natToStr p hple]

theorem components_cons_slash {t : Str} (h : startsWithChar '/' t = true) :
    components ('/' :: t) = components t := by
  have hsplit : splitAll '/' ('/' :: t) = [] :: splitAll '/' t := rfl
  have h1 : startsWithChar '/' ('/' :: t) = true := by simp [startsWithChar]
  unfold components
  rw [hsplit, h1, h]
  simp [segComp]

theorem rootJoin_pathEq {t : Str} : pathEq (rootJoin t) ('/' :: t) := by
  unfold rootJoin pathIsAbsolute
  by_cases hab : startsWithChar '/' t = true
  · rw [if_pos hab]
    exact (components_cons_slash hab).symm
  · rw [if_neg (by simp [hab])]
    rfl

theorem repoFmt_reparse {r : Repo} (h : goodRepo r = true) :
    ∃ r2, repoFromStr (repoFmt r) = .ok r2 ∧ repoEq r2 r := by
  obtain ⟨orem, path, pass⟩ := r
  cases orem with
  | none =>
    simp only [goodRepo, Bool.and_eq_true, Bool.not_eq_true'] at h
    obtain ⟨⟨h1, h2⟩, h3⟩ := h
    refine ⟨⟨none, path, none⟩, ?_, ⟨rfl, rfl⟩⟩
    unfold repoFmt repoFromStr
    rw [stripPre_of_hasPre_false h1, stripPre_of_hasPre_false h2,
      splitOnce_of_hasChar_false h3]
  | some rem =>
    simp only [goodRepo, Bool.and_eq_true] at h
    obtain ⟨hrem, hpath⟩ := h
    have hfile : ∀ t : Str, stripPre "file://".data ("ssh://".data ++ t) = none := by
      intro t
      apply stripPre_of_hasPre_false
      rfl
    by_cases habs : pathIsAbsolute path = true
    · cases path with
      | nil => simp [pathIsAbsolute, startsWithChar] at habs
      | cons c t =>
        have hc : c = '/' := by
          simpa [pathIsAbsolute, startsWithChar] using habs
        subst hc
        rw [if_pos habs] at hpath
        simp only [Bool.and_eq_true, Bool.not_eq_true', List.drop_succ_cons,
          List.drop_zero] at hpath
        obtain ⟨hdot, htld⟩ := hpath
        refine ⟨⟨some rem, rootJoin t, none⟩, ?_, ?_⟩
        · unfold repoFmt
          rw [if_pos habs]
          simp only [List.append_nil, List.append_assoc]
          simp only [repoFromStr, hfile, stripPre_append,
            splitOnce_append_cons t (fmtRemote_no_slash hrem),
            parseRemote_fmtRemote hrem]
          simp [hdot, htld]
        · exact ⟨rootJoin_pathEq, rfl⟩
    · rw [if_neg habs] at hpath
      refine ⟨⟨some rem, path, none⟩, ?_, ⟨rfl, rfl⟩⟩
      unfold repoFmt
      rw [if_neg habs]
      simp only [List.append_assoc, List.singleton_append]
      simp only [repoFromStr, hfile, stripPre_append,
        splitOnce_append_cons path (fmtRemote_no_slash hrem),
        parseRemote_fmtRemote hrem]
      rcases Bool.or_eq_true_iff.mp hpath with hsw | hsw <;> simp [hsw]

/-! Claims C1 and C2. -/

/-- C1 (corrected): for every address string `s` that parses to a repository
`r` satisfying `goodRepo` (the path of a remote-less address must contain no
colon and no scheme-like leading text; a remote address must have a
well-behaved remote and a path that re-splits unambiguously), formatting `r`
and re-parsing yields a value equal to `r` under the passphrase-ignoring
equality, and whenever a remote is present — in particular for the legacy
syntax — the formatted form is the normalized `ssh://` form. -/
theorem c1_format_parse_round_trip (s : Str) (r : Repo)
    (hp : repoFromStr s = .ok r) (hg : goodRepo r = true) :
    (∃ r2, repoFromStr (repoFmt r) = .ok r2 ∧ repoEq r2 r) ∧
      (∀ rem, r.remote = some rem → hasPre "ssh://".data (repoFmt r) = true) := by
  refine ⟨repoFmt_reparse hg, ?_⟩
  intro rem hrem
  obtain ⟨orem, path, pass⟩ := r
  simp only at hrem
  subst hrem
  simp only [repoFmt, List.append_assoc]
  exact hasPre_append_self _ _

/-- Witness for C1 at the concrete address `ssh://user@host:22/data/repo`. -/
theorem c1_format_parse_round_trip_witness :
    (repoFromStr "ssh://user@host:22/data/repo".data = .ok
        ⟨some ⟨some "user".data, "host".data, some 22⟩, "/data/repo".data, none⟩ ∧
      goodRepo ⟨some ⟨some "user".data, "host".data, some 22⟩,
        "/data/repo".data, none⟩ = true) ∧
    ((∃ r2, repoFromStr (repoFmt ⟨some ⟨some "user".data, "host".data, some 22⟩,
          "/data/repo".data, none⟩) = .ok r2 ∧
        repoEq r2 ⟨some ⟨some "user".data, "host".data, some 22⟩,
          "/data/repo".data, none⟩) ∧
      (∀ rem, (Repo.mk (some ⟨some "user".data, "host".data, some 22⟩)
            "/data/repo".data none).remote = some rem →
        hasPre "ssh://".data (repoFmt ⟨some ⟨some "user".data, "host".data, some 22⟩,
          "/data/repo".data, none⟩) = true)) :=
  ⟨⟨rfl, rfl⟩,
    c1_format_parse_round_trip "ssh://user@host:22/data/repo".data _ rfl rfl⟩

/-- Counterexample for C1 as stated: the legacy address `host:path` parses to
a relative remote path `path`, formats to `ssh://host/path`, but re-parsing
roots the path to `/path`, which is not equal to the original parse. -/
theorem c1_round_trip_counterexample :
    repoFromStr "host:path".data =
      .ok ⟨some ⟨none, "host".data, none⟩, "path".data, none⟩ ∧
    repoFmt ⟨some ⟨none, "host".data, none⟩, "path".data, none⟩ =
      "ssh://host/path".data ∧
    repoFromStr "ssh://host/path".data =
      .ok ⟨some ⟨none, "host".data, none⟩, "/path".data, none⟩ ∧
    ¬ repoEq ⟨some ⟨none, "host".data, none⟩, "/path".data, none⟩
        ⟨some ⟨none, "host".data, none⟩, "path".data, none⟩ :=
  ⟨rfl, rfl, rfl, by decide⟩

/-- C2 (corrected): parsing the formatted form of a remote-less repository
yields an equal value, provided the path does not begin with `file://` or
`ssh://` and contains no colon. -/
theorem c2_parse_format_remoteless (p : Str) (pass : Option Passphrase)
    (h1 : hasPre "file://".data p = false) (h2 : hasPre "ssh://".data p = false)
    (h3 : hasChar ':' p = false) :
    repoFromStr (repoFmt ⟨none, p, pass⟩) = .ok ⟨none, p, none⟩ ∧
      repoEq ⟨none, p, none⟩ ⟨none, p, pass⟩ := by
  constructor
  · unfold repoFmt repoFromStr
    rw [stripPre_of_hasPre_false h1, stripPre_of_hasPre_false h2,
      splitOnce_of_hasChar_false h3]
  · exact ⟨rfl, rfl⟩

/-- Witness for C2 at the concrete remote-less address `/backups/main`. -/
theorem c2_parse_format_remoteless_witness :
    (hasPre "file://".data "/backups/main".data = false ∧
      hasPre "ssh://".data "/backups/main".data = false ∧
      hasChar ':' "/backups/main".data = false) ∧
    (repoFromStr (repoFmt ⟨none, "/backups/main".data,
        some (.pass "secret".data)⟩) = .ok ⟨none, "/backups/main".data, none⟩ ∧
      repoEq ⟨none, "/backups/main".data, none⟩
        ⟨none, "/backups/main".data, some (.pass "secret".data)⟩) :=
  ⟨⟨rfl, rfl, rfl⟩, c2_parse_format_remoteless "/backups/main".data _ rfl rfl rfl⟩

/-- Counterexample for C2 as stated: the remote-less address with path `a:b`
formats to `a:b`, which re-parses through the legacy syntax to a remote
address not equal to the original. -/
theorem c2_parse_format_counterexample :
    repoFmt ⟨none, "a:b".data, none⟩ = "a:b".data ∧
    repoFromStr "a:b".data = .ok ⟨some ⟨none, "a".data, none⟩, "b".data, none⟩ ∧
    ¬ repoEq ⟨some ⟨none, "a".data, none⟩, "b".data, none⟩
        ⟨none, "a:b".data, none⟩ :=
  ⟨rfl, rfl, by decide⟩

/-! Compression descriptor (`src/borrg.rs`). -/

/-- Compression algorithm with optional level, auto mode and obfuscation
(`NonZeroU8` modelled as a natural number in 1..=255). -/
inductive Compression
  | none (obfuscation : Option Nat)
  | lz4 (auto : Bool) (obfuscation : Option Nat)
  | zstd (level : Option Nat) (auto : Bool) (obfuscation : Option Nat)
  | zlib (level : Option Nat) (auto : Bool) (obfuscation : Option Nat)
  | lzma (level : Option Nat) (auto : Bool) (obfuscation : Option Nat)
deriving DecidableEq

/-- Helper `fmt_obfuscation` in `impl Display for Compression`. -/
def fmtObfuscation : Option Nat → Str
  | some o => "obfuscate,".data ++ natToStr o ++ [',']
  | Option.none => []

/-- Helper `fmt_auto` in `impl Display for Compression`. -/
def fmtAuto (auto : Bool) : Str := if auto then "auto,".data else []

/-- Helper `fmt_level` in `impl Display for Compression`. -/
def fmtLevel : Option Nat → Str
  | some l => ',' :: natToStr l
  | Option.none => []

/-- Rust `impl Display for Compression`.  Note the `Lz4` arm of the source
writes the auto marker after the algorithm name. -/
def compressionFmt : Compression → Str
  | .none obf => fmtObfuscation obf ++ "none".data
  | .lz4 auto obf => fmtObfuscation obf ++ "lz4".data ++ fmtAuto auto
  | .zstd level auto obf =>
    fmtObfuscation obf ++ fmtAuto auto ++ "zstd".data ++ fmtLevel level
  | .zlib level auto obf =>
    fmtObfuscation obf ++ fmtAuto auto ++ "zlib".data ++ fmtLevel level
  | .lzma level auto obf =>
    fmtObfuscation obf ++ fmtAuto auto ++ "lzma".data ++ fmtLevel level

/-! Configuration model (`src/cli/config.rs`).  TOML values are modelled
structurally; float and datetime payloads are irrelevant to the claims. -/

/-- A TOML value as seen by the configuration loader. -/
inductive Toml
  | str (s : Str)
  | int (n : Int)
  | float
  | boolean (b : Bool)
  | datetime
  | arr (xs : List Toml)
  | table (m : List (Str × Toml))

/-- Rust `toml::Value::type_str`. -/
def typeStr : Toml → String
  | .str _ => "string"
  | .int _ => "integer"
  | .float => "float"
  | .boolean _ => "boolean"
  | .datetime => "datetime"
  | .arr _ => "array"
  | .table _ => "table"

/-- Key lookup in a TOML table. -/
def tomlGet (m : List (Str × Toml)) (k : Str) : Option Toml :=
  match m with
  | [] => none
  | (k2, v) :: rest => if k2 = k then some v else tomlGet rest k

/-- Rust `ConfigError` (`src/cli/config.rs`). -/
inductive ConfigError
  | typeError (expected : Option String) (found : Option String)
  | valueError
  | missingKey (k : String)
  | exclusiveKeys (a b : String)
  | missingTemplate (name : Str)
  | keyed (key : Str) (err : ConfigError)
  | ioError
  | parseError
  | other (msg : String)
deriving DecidableEq

/-- Rust `ConfigProperty::from_map`: absent key is `None`, a failing parse is
wrapped with the key. -/
def fromMap (pf : Toml → Except ConfigError α) (m : List (Str × Toml)) (k : Str) :
    Except ConfigError (Option α) :=
  match tomlGet m k with
  | none => .ok none
  | some v =>
    match pf v with
    | .ok a => .ok (some a)
    | .error e => .error (.keyed k e)

/-- Rust `impl ConfigProperty for String`. -/
def parseStringProp : Toml → Except ConfigError Str
  | .str s => .ok s
  | v => .error (.typeError (some "string") (some (typeStr v)))

/-- Rust `impl ConfigProperty for PathBuf`. -/
def parsePathProp : Toml → Except ConfigError Str
  | .str s => .ok s
  | v => .error (.typeError (some "string") (some (typeStr v)))

/-- Repository shorthand in a job or template body. -/
inductive RepoConfig
  | split (user : Option Str) (host : Option Str) (path : Option Str)
  | combined (s : Str)
deriving DecidableEq

/-- Rust `RepoConfig::inherit`: only `Split` fields that are absent inherit,
and only from a `Split` template. -/
def RepoConfig.inherit (self other : RepoConfig) : RepoConfig :=
  match self with
  | .combined s => .combined s
  | .split u h p =>
    .split
      (match u, other with
        | none, .split u2 _ _ => u2
        | _, _ => u)
      (match h, other with
        | none, .split _ h2 _ => h2
        | _, _ => h)
      (match p, other with
        | none, .split _ _ p2 => p2
        | _, _ => p)

/-- Rust `impl ConfigProperty for RepoConfig`. -/
def parseRepoConfigProp (value : Toml) : Except ConfigError RepoConfig :=
  match value with
  | .str s => .ok (.combined s)
  | .table t =>
    match fromMap parseStringProp t "user".data with
    | .error e => .error e
    | .ok user =>
      match fromMap parseStringProp t "host".data with
      | .error e => .error e
      | .ok host =>
        match fromMap parsePathProp t "path".data with
        | .error e => .error e
        | .ok path => .ok (.split user host path)
  | v => .error (.typeError (some "string or table") (some (typeStr v)))

/-- Two's-complement truncation of an `i64` into a `u8` (`as u8` in Rust). -/
def u8wrap (n : Int) : Nat := (Int.emod n 256).toNat

/-- Rust `ConfigError::at_key`: wrap an error with the key it occurred at. -/
def ated (e : ConfigError) (k : Str) : ConfigError := .keyed k e

/-- Rust `impl ConfigProperty for Compression`: string shorthand or table form
with `algorithm`, `auto`, `level`, `obfuscation`. -/
def parseCompressionProp (value : Toml) : Except ConfigError Compression :=
  match value with
  | .str s =>
    if s.map Char.toLower = "none".data then .ok (Compression.none Option.none)
    else if s.map Char.toLower = "lz4".data then .ok (.lz4 false Option.none)
    else if s.map Char.toLower = "lzma".data then
      .ok (.lzma Option.none false Option.none)
    else if s.map Char.toLower = "zlib".data then
      .ok (.zlib Option.none false Option.none)
    else if s.map Char.toLower = "zstd".data then
      .ok (.zstd Option.none false Option.none)
    else .error .valueError
  | .table t =>
    match
      (match tomlGet t "auto".data with
        | some (.boolean b) => .ok b
        | none => .ok false
        | some _ =>
          .error (ated (ConfigError.typeError (some "boolean")
            (some (typeStr value))) "auto".data) : Except ConfigError Bool) with
    | .error e => .error e
    | .ok auto =>
    match
      (match tomlGet t "level".data with
        | some (.int i) => .ok (some (u8wrap i))
        | none => .ok none
        | some _ =>
          .error (ated (ConfigError.typeError (some "integer")
            (some (typeStr value))) "level".data) : Except ConfigError (Option Nat)) with
    | .error e => .error e
    | .ok level =>
    match
      (match tomlGet t "obfuscation".data with
        | some (.int i) =>
          if u8wrap i = 0 then .error (ated ConfigError.valueError "obfuscation".data)
          else .ok (some (u8wrap i))
        | none => .ok none
        | some _ =>
          .error (ated (ConfigError.typeError (some "integer")
            (some (typeStr value))) "obfuscation".data) : Except ConfigError (Option Nat)) with
    | .error e => .error e
    | .ok obfuscation =>
    match tomlGet t "algorithm".data with
    | some (.str s) =>
      if s.map Char.toLower = "none".data then .ok (Compression.none obfuscation)
      else if s.map Char.toLower = "lz4".data then .ok (.lz4 auto obfuscation)
      else if s.map Char.toLower = "zstd".data then .ok (.zstd level auto obfuscation)
      else if s.map Char.toLower = "zlib".data then .ok (.zlib level auto obfuscation)
      else if s.map Char.toLower = "lzma".data then .ok (.lzma level auto obfuscation)
      else .error (ated ConfigError.valueError "algorithm".data)
    | none => .error (.missingKey "algorithm")
    | some _ =>
      .error (ated (ConfigError.typeError (some "string")
        (some (typeStr value))) "algorithm".data)
  | _ => .error (.typeError (some "string or table") (some (typeStr value)))

/-- Rust `BackupConfig`: one job or template body before inheritance. -/
structure BackupConfig where
  template : Option Str
  repo : Option RepoConfig
  passphrase : Option Passphrase
  paths : List Str
  compression : Option Compression
  pattern_file : Option Str
  exclude_file : Option Str
deriving DecidableEq

/-- Rust `impl Default for BackupConfig`: the baked-in synthetic defaults. -/
def defaultBackupConfig : BackupConfig :=
  { template := none
    repo := none
    passphrase := none
    paths := ["~".data]
    compression := none
    pattern_file := none
    exclude_file := some ".borgignore".data }

/-- Rust `BackupConfig::resolve_with`, the merge of a job against a template. -/
def resolveWith (self template : BackupConfig) : BackupConfig :=
  { template := template.template
    repo :=
      match self.repo with
      | none => template.repo
      | some (.combined s) => some (.combined s)
      | some (.split u h p) =>
        some
          (match template.repo with
            | some t => RepoConfig.inherit (.split u h p) t
            | none => .split u h p)
    passphrase :=
      match self.passphrase with
      | none => template.passphrase
      | some p => some p
    paths :=
      if self.paths.isEmpty then template.paths
      else
        (self.paths.map
          (fun p => if p = "...".data then template.paths else [p])).flatten
    compression :=
      match self.compression with
      | none => template.compression
      | some c => some c
    pattern_file :=
      match self.pattern_file with
      | none => template.pattern_file
      | some f => some f
    exclude_file :=
      match self.exclude_file with
      | none => template.exclude_file
      | some f => some f }

/-- Rust `BackupConfig::set_defaults`: clear the template link and merge with
the baked-in defaults. -/
def setDefaults (c : BackupConfig) : BackupConfig :=
  resolveWith { c with template := none } defaultBackupConfig

/-- Rust template lookup inside `BackupConfig::resolve` (`find_map` by exact
name, first match). -/
def lookupTmpl (t : Str) (ts : List (Str × BackupConfig)) : Option BackupConfig :=
  match ts with
  | [] => none
  | (n, c) :: rest => if n = t then some c else lookupTmpl t rest

/-- Rust `BackupConfig::resolve`: follow the template chain until no template
name remains; a missing name is a `MissingTemplate` error.  The source's
`while` loop is modelled with explicit fuel; `none` marks exhausted fuel
(the source would still be looping). -/
def resolveFuel (fuel : Nat) (c : BackupConfig) (ts : List (Str × BackupConfig)) :
    Option (Except ConfigError BackupConfig) :=
  match fuel with
  | 0 => none
  | fuel + 1 =>
    match c.template with
    | none => some (.ok c)
    | some t =>
      match lookupTmpl t ts with
      | none => some (.error (.missingTemplate t))
      | some tm => resolveFuel fuel (resolveWith c tm) ts

/-- The template preparation in `impl ConfigProperty for Vec<(Repo, Archive)>`:
`set_defaults` on every template named `default`, and a synthetic default
pushed at the end when none is declared. -/
def prepareTemplates (ts : List (Str × BackupConfig)) : List (Str × BackupConfig) :=
  (ts.map (fun nc => if nc.1 = "default".data then (nc.1, setDefaults nc.2) else nc)) ++
    (if ts.any (fun nc => nc.1 = "default".data) then []
     else [("default".data, defaultBackupConfig)])

/-! Claim C3: the compression string encoding. -/

/-- C3 (code bug): the `Lz4` display arm appends the auto marker after the
algorithm name, so `Lz4 { auto: true }` formats to `"lz4auto,"` instead of the
claimed `"auto,lz4"`; the other variants follow the claimed encoding, e.g.
`Zstd { level: Some(19), auto: true }` formats to `"auto,zstd,19"` and the
table-form parser reconstructs that value from its fields. -/
theorem c3_compression_encoding_bug :
    compressionFmt (.lz4 true Option.none) = "lz4auto,".data ∧
    compressionFmt (.lz4 false (some 3)) = "obfuscate,3,lz4".data ∧
    compressionFmt (.zstd (some 19) true Option.none) = "auto,zstd,19".data ∧
    compressionFmt (.zlib (some 6) false (some 2)) = "obfuscate,2,zlib,6".data ∧
    compressionFmt (Compression.none (some 5)) = "obfuscate,5,none".data ∧
    parseCompressionProp (.table [("algorithm".data, .str "zstd".data),
        ("auto".data, .boolean true), ("level".data, .int 19)]) =
      .ok (.zstd (some 19) true Option.none) :=
  ⟨rfl, rfl, rfl, rfl, rfl, rfl⟩

/-! Claim C4: the path merge during template resolution. -/

/-- C4 (confirmed): during `resolve_with`, a job with no declared paths
inherits the template's paths wholesale; otherwise every literal `"..."` entry
is replaced in place by the template's entire path list, order preserved and
other entries untouched; in particular `["/extra", "..."]` merged against
`["/a", "/b"]` gives `["/extra", "/a", "/b"]`. -/
theorem c4_sentinel_path_splice :
    (∀ job tmpl : BackupConfig,
      (resolveWith job tmpl).paths =
        if job.paths.isEmpty then tmpl.paths
        else (job.paths.map
          (fun p => if p = "...".data then tmpl.paths else [p])).flatten) ∧
    (resolveWith
        ⟨some "default".data, none, none, ["/extra".data, "...".data],
          none, none, none⟩
        ⟨none, none, none, ["/a".data, "/b".data], none, none, none⟩).paths =
      ["/extra".data, "/a".data, "/b".data] :=
  ⟨fun _ _ => rfl, rfl⟩

/-! Claim C8: missing templates. -/

/-- C8 (confirmed): whenever the job's template name — or, applying the same
statement to the partially merged state, any template name reached while
following the chain — has no exact-name match in the registered template list,
resolution fails with `MissingTemplate` naming that template; the second
conjunct spells out the two-hop case explicitly. -/
theorem c8_missing_template_error :
    (∀ (fuel : Nat) (job : BackupConfig) (ts : List (Str × BackupConfig)) (t : Str),
      job.template = some t → lookupTmpl t ts = none →
      resolveFuel (fuel + 1) job ts = some (.error (.missingTemplate t))) ∧
    (∀ (fuel : Nat) (job : BackupConfig) (ts : List (Str × BackupConfig))
        (t t2 : Str) (tm : BackupConfig),
      job.template = some t → lookupTmpl t ts = some tm → tm.template = some t2 →
      lookupTmpl t2 ts = none →
      resolveFuel (fuel + 2) job ts = some (.error (.missingTemplate t2))) := by
  constructor
  · intro fuel job ts t hjt hlk
    simp [resolveFuel, hjt, hlk]
  · intro fuel job ts t t2 tm hjt hlk htm2 hlk2
    have hmerged : (resolveWith job tm).template = some t2 := htm2
    simp [resolveFuel, hjt, hlk, hmerged, hlk2]

/-- Witness for C8: a job naming the undeclared template `custom` against a
registry holding only the default template fails with
`MissingTemplate("custom")`. -/
theorem c8_missing_template_error_witness :
    resolveFuel 1 ⟨some "custom".data, none, none, [], none, none, none⟩
        [("default".data, defaultBackupConfig)] =
      some (.error (.missingTemplate "custom".data)) :=
  c8_missing_template_error.1 0
    ⟨some "custom".data, none, none, [], none, none, none⟩
    [("default".data, defaultBackupConfig)] "custom".data rfl rfl

/-! Event decoder (`src/backend/borg.rs`).  JSON numbers are modelled as exact
integers; the claims under study only involve integer-valued fields.  The
`question_prompt` arm of the source calls `.unwrap()` on optional fields and
`Duration::from_secs_f64` panics on negative input, so decoding results carry
an explicit panic outcome. -/

/-- A JSON value as seen by the decoder. -/
inductive Json
  | null
  | boolean (b : Bool)
  | num (n : Int)
  | str (s : Str)
  | arr (xs : List Json)
  | obj (m : List (Str × Json))

/-- Key lookup in a JSON object's field list. -/
def jgetList (m : List (Str × Json)) (k : Str) : Option Json :=
  match m with
  | [] => none
  | (k2, v) :: rest => if k2 = k then some v else jgetList rest k

/-- Key lookup on a JSON value (`serde_json::Value::get`). -/
def jget (j : Json) (k : Str) : Option Json :=
  match j with
  | .obj m => jgetList m k
  | _ => none

/-- Log severity (`log::Level`; `Trace` never produced by the decoder). -/
inductive LogLevel
  | debug
  | info
  | warn
  | error
deriving DecidableEq

/-- The decoded event type (`Event` in `src/borrg.rs`); timestamps are seconds
since the epoch. -/
inductive Event
  | archiveProgress (nfiles compressed_size deduplicated_size original_size : Nat)
      (path : Str) (time : Option Int)
  | progressMessage (message : Option Str) (finished : Option Bool)
      (msgid : Option Str) (operation : Option Nat) (time : Option Int)
  | progressPercent (current : Nat) (finished : Bool) (message : Str)
      (msgid : Str) (operation : Nat) (time : Int) (total : Nat)
  | logMessage (name : Option Str) (level : Option LogLevel) (message : Str)
      (msgid : Option Str) (time : Option Int)
  | fileStatus (status : Str) (path : Str)
  | prompt (prompt : Str) (msgid : Str)
  | other (line : Str)
  | error (msg : String)
deriving DecidableEq

/-- Outcome of `TryFrom<serde_json::Value> for Event`: success, a recoverable
decode error, or a panic (an `unwrap()` on `None` or a negative duration). -/
inductive Decoded
  | ok (e : Event)
  | err (msg : String)
  | panicked
deriving DecidableEq

/-- The `time` closure: `as_f64` then `UNIX_EPOCH + from_secs_f64`;
`from_secs_f64` panics on a negative number (`Except.error` marks the panic). -/
def timeOf (j : Json) : Except Unit (Option Int) :=
  match jget j "time".data with
  | some (.num n) => if n < 0 then .error () else .ok (some n)
  | _ => .ok none

/-- The unsigned-integer field closures (`as_u64`). -/
def u64Field (j : Json) (k : Str) : Option Nat :=
  match jget j k with
  | some (.num n) => if 0 ≤ n ∧ n < 18446744073709551616 then some n.toNat else none
  | _ => none

/-- The string field closures (`as_str`). -/
def strField (j : Json) (k : Str) : Option Str :=
  match jget j k with
  | some (.str s) => some s
  | _ => none

/-- The boolean field closures (`as_bool`). -/
def boolField (j : Json) (k : Str) : Option Bool :=
  match jget j k with
  | some (.boolean b) => some b
  | _ => none

/-- The `level` closure: lowercase names under `level` first, uppercase names
under `levelname` second; unrecognized strings yield no severity. -/
def levelOf (j : Json) : Option LogLevel :=
  match
    (match strField j "level".data with
      | some s =>
        if s = "debug".data then some LogLevel.debug
        else if s = "info".data then some LogLevel.info
        else if s = "warning".data then some LogLevel.warn
        else if s = "error".data then some LogLevel.error
        else none
      | none => none) with
  | some l => some l
  | none =>
    match strField j "levelname".data with
    | some s =>
      if s = "DEBUG".data then some LogLevel.debug
      else if s = "INFO".data then some LogLevel.info
      else if s = "WARNING".data then some LogLevel.warn
      else if s = "ERROR".data then some LogLevel.error
      else none
    | none => none

/-- Rust `impl TryFrom<serde_json::Value> for Event`.  `now` stands for
`SystemTime::now()`, used when a `progress_percent` line carries no time. -/
def eventTryFrom (now : Int) (j : Json) : Decoded :=
  match jget j "type".data with
  | some (.str t) =>
    if t = "archive_progress".data then
      match timeOf j with
      | .error _ => .panicked
      | .ok tm =>
        .ok (.archiveProgress
          ((u64Field j "nfiles".data).getD 0)
          ((u64Field j "compressed_size".data).getD 0)
          ((u64Field j "deduplicated_size".data).getD 0)
          ((u64Field j "original_size".data).getD 0)
          ((strField j "path".data).getD [])
          tm)
    else if t = "progress_message".data then
      match timeOf j with
      | .error _ => .panicked
      | .ok tm =>
        .ok (.progressMessage
          (strField j "message".data)
          (boolField j "finished".data)
          (strField j "msgid".data)
          (u64Field j "operation".data)
          tm)
    else if t = "log_message".data then
      match timeOf j with
      | .error _ => .panicked
      | .ok tm =>
        .ok (.logMessage
          (strField j "name".data)
          (levelOf j)
          ((strField j "message".data).getD [])
          (strField j "msgid".data)
          tm)
    else if t = "file_status".data then
      .ok (.fileStatus
        ((strField j "status".data).getD [])
        ((strField j "path".data).getD []))
    else if t = "progress_percent".data then
      match timeOf j with
      | .error _ => .panicked
      | .ok tm =>
        .ok (.progressPercent
          ((u64Field j "current".data).getD 0)
          ((boolField j "finished".data).getD false)
          ((strField j "message".data).getD [])
          ((strField j "msgid".data).getD [])
          ((u64Field j "operation".data).getD 0)
          (tm.getD now)
          ((u64Field j "total".data).getD 0))
    else if t = "question_prompt".data then
      match strField j "message".data with
      | none => .panicked
      | some m =>
        match strField j "msgid".data with
        | none => .panicked
        | some i => .ok (.prompt m i)
    else .err "Unknown event type"
  | _ => .err "no type"

/-- One step of the `Events` iterator on a successfully read line: parse the
line as JSON (the JSON parser is the collaborating `serde_json::from_str`,
passed as a parameter), then convert; parse or conversion failures degrade to
`Other(line)` and the iterator keeps yielding. -/
def decodeLine (jparse : Str → Option Json) (now : Int) (line : Str) : Decoded :=
  match jparse line with
  | none => .ok (.other line)
  | some j =>
    match eventTryFrom now j with
    | .ok e => .ok e
    | .err _ => .ok (.other line)
    | .panicked => .panicked

/-- The `type` tag as the decoder reads it. -/
def typeTagOf (j : Json) : Option Str :=
  match jget j "type".data with
  | some (.str t) => some t
  | _ => none

/-- The six recognized message tags. -/
def knownTags : List Str :=
  ["archive_progress".data, "progress_message".data, "log_message".data,
    "file_status".data, "progress_percent".data, "question_prompt".data]

theorem jget_type_of_typeTag {j : Json} {t : Str} (h : typeTagOf j = some t) :
    jget j "type".data = some (.str t) := by
  unfold typeTagOf at h
  rcases hg : jget j "type".data with _ | v
  · rw [hg] at h
    cases h
  · cases v with
    | str s =>
      rw [hg] at h
      simp only [Option.some.injEq] at h ⊢
      exact congrArg Json.str h.symm ▸ rfl
    | null => rw [hg] at h; cases h
    | boolean b => rw [hg] at h; cases h
    | num n => rw [hg] at h; cases h
    | arr xs => rw [hg] at h; cases h
    | obj m => rw [hg] at h; cases h

/-! Claim C5: unparseable and unrecognized lines degrade to `Other`. -/

/-- C5 (confirmed): for every line that fails to parse as JSON, or parses but
carries no string `type` tag, or carries an unrecognized tag, the decoder
yields `Other` with the original line unchanged — the iterator keeps yielding
events rather than terminating. -/
theorem c5_unrecognized_lines_degrade
    (jparse : Str → Option Json) (now : Int) (line : Str) :
    (jparse line = none → decodeLine jparse now line = .ok (.other line)) ∧
    (∀ j, jparse line = some j → typeTagOf j = none →
      decodeLine jparse now line = .ok (.other line)) ∧
    (∀ j t, jparse line = some j → typeTagOf j = some t → ¬(t ∈ knownTags) →
      decodeLine jparse now line = .ok (.other line)) := by
  refine ⟨?_, ?_, ?_⟩
  · intro h
    simp [decodeLine, h]
  · intro j hj hty
    simp only [decodeLine, hj]
    have herr : eventTryFrom now j = .err "no type" := by
      unfold typeTagOf at hty
      unfold eventTryFrom
      rcases hg : jget j "type".data with _ | v
      · rfl
      · cases v with
        | str s =>
          rw [hg] at hty
          simp at hty
        | null => rfl
        | boolean b => rfl
        | num n => rfl
        | arr xs => rfl
        | obj m => rfl
    simp [herr]
  · intro j t hj hty hmem
    have hjget := jget_type_of_typeTag hty
    simp only [knownTags, List.mem_cons, List.not_mem_nil, or_false, not_or] at hmem
    obtain ⟨h1, h2, h3, h4, h5, h6⟩ := hmem
    simp only [decodeLine, hj]
    have herr : eventTryFrom now j = .err "Unknown event type" := by
      simp only [eventTryFrom, hjget, if_neg h1, if_neg h2, if_neg h3, if_neg h4,
        if_neg h5, if_neg h6]
    simp [herr]

/-- The JSON parser used in the C5 witness: `not json` fails to parse, every
other line parses to an object tagged `unknown_tag`. -/
def c5Jparse : Str → Option Json :=
  fun l =>
    if l = "not json".data then none
    else some (.obj [("type".data, .str "unknown_tag".data)])

/-- Witness for C5: the line `not json` decodes to `Other("not json")`, and a
line whose JSON carries the tag `unknown_tag` decodes to `Other` with the line
preserved. -/
theorem c5_unrecognized_lines_degrade_witness :
    decodeLine c5Jparse 0 "not json".data = .ok (.other "not json".data) ∧
    decodeLine c5Jparse 0 "\x7b\"type\":\"unknown_tag\"\x7d".data =
      .ok (.other "\x7b\"type\":\"unknown_tag\"\x7d".data) :=
  ⟨(c5_unrecognized_lines_degrade c5Jparse 0 "not json".data).1 rfl,
    (c5_unrecognized_lines_degrade c5Jparse 0
        "\x7b\"type\":\"unknown_tag\"\x7d".data).2.2
      (.obj [("type".data, .str "unknown_tag".data)]) "unknown_tag".data
      rfl rfl (by decide)⟩

/-! Claims C6 and C7: required versus defaulted fields. -/

/-- C6 (corrected): a `log_message` line missing `message` and a `file_status`
line missing `status` decode successfully with empty-string defaults
(`unwrap_or_default`), and a `question_prompt` line missing `message` or
`msgid` panics (`unwrap()` on `None`) instead of failing gracefully. -/
theorem c6_required_field_behavior :
    (∀ (now : Int) (j : Json) (tm : Option Int),
      typeTagOf j = some "log_message".data →
      strField j "message".data = none → timeOf j = .ok tm →
      eventTryFrom now j = .ok (.logMessage (strField j "name".data) (levelOf j)
        [] (strField j "msgid".data) tm)) ∧
    (∀ (now : Int) (j : Json),
      typeTagOf j = some "file_status".data → strField j "status".data = none →
      eventTryFrom now j =
        .ok (.fileStatus [] ((strField j "path".data).getD []))) ∧
    (∀ (now : Int) (j : Json),
      typeTagOf j = some "question_prompt".data →
      (strField j "message".data = none ∨ strField j "msgid".data = none) →
      eventTryFrom now j = .panicked) := by
  refine ⟨?_, ?_, ?_⟩
  · intro now j tm hty hmsg htime
    have hjget := jget_type_of_typeTag hty
    simp only [eventTryFrom, hjget,
      if_neg (show ¬("log_message".data = "archive_progress".data) by decide),
      if_neg (show ¬("log_message".data = "progress_message".data) by decide),
      if_pos (show ("log_message".data = "log_message".data) from rfl)]
    rw [htime, hmsg]
    simp
  · intro now j hty hst
    have hjget := jget_type_of_typeTag hty
    simp only [eventTryFrom, hjget,
      if_neg (show ¬("file_status".data = "archive_progress".data) by decide),
      if_neg (show ¬("file_status".data = "progress_message".data) by decide),
      if_neg (show ¬("file_status".data = "log_message".data) by decide),
      if_pos (show ("file_status".data = "file_status".data) from rfl)]
    rw [hst]
    simp
  · intro now j hty hmiss
    have hjget := jget_type_of_typeTag hty
    simp only [eventTryFrom, hjget,
      if_neg (show ¬("question_prompt".data = "archive_progress".data) by decide),
      if_neg (show ¬("question_prompt".data = "progress_message".data) by decide),
      if_neg (show ¬("question_prompt".data = "log_message".data) by decide),
      if_neg (show ¬("question_prompt".data = "file_status".data) by decide),
      if_neg (show ¬("question_prompt".data = "progress_percent".data) by decide),
      if_pos (show ("question_prompt".data = "question_prompt".data) from rfl)]
    rcases hmiss with hmiss | hmiss
    · rw [hmiss]
      simp
    · rw [hmiss]
      rcases hm : strField j "message".data with _ | m <;> simp

/-- Witness for C6 at three concrete event objects. -/
theorem c6_required_field_behavior_witness :
    eventTryFrom 0 (.obj [("type".data, .str "log_message".data)]) =
      .ok (.logMessage none none [] none none) ∧
    eventTryFrom 0 (.obj [("type".data, .str "file_status".data)]) =
      .ok (.fileStatus [] []) ∧
    eventTryFrom 0 (.obj [("type".data, .str "question_prompt".data),
        ("message".data, .str "create?".data)]) = .panicked :=
  ⟨c6_required_field_behavior.1 0 (.obj [("type".data, .str "log_message".data)])
      none rfl rfl rfl,
    c6_required_field_behavior.2.1 0 (.obj [("type".data, .str "file_status".data)])
      rfl rfl,
    c6_required_field_behavior.2.2 0 (.obj [("type".data, .str "question_prompt".data),
        ("message".data, .str "create?".data)]) rfl (Or.inr rfl)⟩

/-- Counterexample for C6 as stated: a `log_message` line missing `message`
decodes to a `LogMessage` with an empty default rather than degrading to
`Other`, and a `question_prompt` line missing its fields panics. -/
theorem c6_decode_failure_counterexample :
    eventTryFrom 0 (.obj [("type".data, .str "log_message".data),
        ("time".data, .num 3)]) =
      .ok (.logMessage none none [] none (some 3)) ∧
    decodeLine
        (fun l => if l = "lm".data
          then some (.obj [("type".data, .str "log_message".data)]) else none)
        0 "lm".data ≠ .ok (.other "lm".data) ∧
    eventTryFrom 0 (.obj [("type".data, .str "question_prompt".data)]) =
      .panicked :=
  ⟨rfl, by decide, rfl⟩

/-- C7 (corrected): a `progress_percent` line missing `total` decodes
successfully to a `ProgressPercent` event with `total` defaulted to 0 — it is
not a decode failure and never panics, provided the optional numeric `time`
field, when present, is a valid nonnegative timestamp (a negative one panics
`Duration::from_secs_f64`). -/
theorem c7_progress_percent_missing_total (now : Int) (j : Json) (tm : Option Int)
    (hty : typeTagOf j = some "progress_percent".data)
    (htime : timeOf j = .ok tm)
    (htot : jget j "total".data = none) :
    eventTryFrom now j = .ok (.progressPercent
      ((u64Field j "current".data).getD 0)
      ((boolField j "finished".data).getD false)
      ((strField j "message".data).getD [])
      ((strField j "msgid".data).getD [])
      ((u64Field j "operation".data).getD 0)
      (tm.getD now) 0) ∧
    eventTryFrom now j ≠ .panicked := by
  have hjget := jget_type_of_typeTag hty
  have htotal : u64Field j "total".data = none := by
    unfold u64Field
    rw [htot]
  have hev : eventTryFrom now j = .ok (.progressPercent
      ((u64Field j "current".data).getD 0)
      ((boolField j "finished".data).getD false)
      ((strField j "message".data).getD [])
      ((strField j "msgid".data).getD [])
      ((u64Field j "operation".data).getD 0)
      (tm.getD now) 0) := by
    simp only [eventTryFrom, hjget,
      if_neg (show ¬("progress_percent".data = "archive_progress".data) by decide),
      if_neg (show ¬("progress_percent".data = "progress_message".data) by decide),
      if_neg (show ¬("progress_percent".data = "log_message".data) by decide),
      if_neg (show ¬("progress_percent".data = "file_status".data) by decide),
      if_pos (show ("progress_percent".data = "progress_percent".data) from rfl)]
    rw [htime, htotal]
    simp
  exact ⟨hev, by rw [hev]; exact fun h => Decoded.noConfusion h⟩

/-- Witness for C7 at a concrete `progress_percent` object missing `total`. -/
theorem c7_progress_percent_missing_total_witness :
    eventTryFrom 0 (.obj [("type".data, .str "progress_percent".data),
        ("time".data, .num 5)]) = .ok (.progressPercent 0 false [] [] 0 5 0) ∧
    eventTryFrom 0 (.obj [("type".data, .str "progress_percent".data),
        ("time".data, .num 5)]) ≠ .panicked :=
  c7_progress_percent_missing_total 0
    (.obj [("type".data, .str "progress_percent".data), ("time".data, .num 5)])
    (some 5) rfl rfl rfl

/-- Counterexample for C7 as stated: the `progress_percent` line missing
`total` does not degrade to `Other`; it decodes to a `ProgressPercent` event
with `total = 0`. -/
theorem c7_decode_failure_counterexample :
    decodeLine
        (fun l => if l = "pp".data
          then some (.obj [("type".data, .str "progress_percent".data),
            ("time".data, .num 5)]) else none)
        0 "pp".data = .ok (.progressPercent 0 false [] [] 0 5 0) ∧
    decodeLine
        (fun l => if l = "pp".data
          then some (.obj [("type".data, .str "progress_percent".data),
            ("time".data, .num 5)]) else none)
        0 "pp".data ≠ .ok (.other "pp".data) :=
  ⟨rfl, by decide⟩

/-! Create-command construction (`BorgWrapper::create_archive` in
`src/backend/borg.rs`).  The file system is the collaborating environment,
passed as an `isFile` predicate; the home directory used by `resolve_path` is
a parameter.  The returned record is the pre-spawn command: the source spawns
the process only after all of these checks pass. -/

/-- A fully resolved archive descriptor (`Archive` in `src/borrg.rs`). -/
structure ArchiveCfg where
  name : Str
  paths : List Str
  compression : Option Compression
  pattern_file : Option Str
  exclude_file : Option Str
  comment : Option Str
deriving DecidableEq

/-- The parts of the assembled `borg create` invocation the claims are about. -/
structure CreateCmd where
  compressionArg : Option Str
  patternsFrom : Option Str
  excludeFrom : Option Str
  target : Str
  srcPaths : List Str
  dryRun : Bool
deriving DecidableEq

/-- Resolution of one pattern or exclude file inside `create_archive`: an
absolute file is used as is, otherwise it is joined onto the first path; the
`else` branch (no first path) produces the source's "relative ... for multiple
paths" error; the resolved file must exist. -/
def resolveFileArg (isFile : Str → Bool) (home : Str) (paths : List Str)
    (kind : String) (file : Str) : Except String Str :=
  match
    (if pathIsAbsolute file then .ok file
     else
       match paths.head? with
       | some p => .ok (resolvePath home (pathJoin p file))
       | none => .error (kind ++ " file for multiple paths")
      : Except String Str) with
  | .error e => .error e
  | .ok resolved =>
    if isFile resolved then .ok resolved
    else .error (kind ++ " file does not exist")

/-- Rust `BorgWrapper::create_archive` up to the point the process is spawned:
the empty-path check, then pattern and exclude file resolution and existence
checks, then the assembled argument list. -/
def createArchive (isFile : Str → Bool) (home : Str) (dryRun : Bool)
    (repoLocation : Str) (arch : ArchiveCfg) : Except String CreateCmd :=
  if arch.paths.isEmpty then .error "No paths specified"
  else
    match
      (match arch.pattern_file with
        | none => .ok none
        | some pf =>
          match resolveFileArg isFile home arch.paths "relative pattern" pf with
          | .error e => .error e
          | .ok r => .ok (some r)
        : Except String (Option Str)) with
    | .error e => .error e
    | .ok pat =>
      match
        (match arch.exclude_file with
          | none => .ok none
          | some ef =>
            match resolveFileArg isFile home arch.paths "relative exclude" ef with
            | .error e => .error e
            | .ok r => .ok (some r)
          : Except String (Option Str)) with
      | .error e => .error e
      | .ok excl =>
        .ok
          { compressionArg := arch.compression.map compressionFmt
            patternsFrom := pat
            excludeFrom := excl
            target := repoLocation ++ "::".data ++ arch.name
            srcPaths := arch.paths.map (resolvePath home)
            dryRun := dryRun }

/-! Claim C9: pattern/exclude file anchoring. -/

/-- C9 (code bug): the claimed "multiple paths and a relative file is an
ambiguous-anchor failure" does not happen — with two paths and a relative
pattern file that exists under the first path, construction succeeds, anchoring
to the first path.  The other two claimed failures do hold: an empty path list
fails before anything is spawned, and a resolved file that does not exist
fails with a does-not-exist error.  The source's "relative pattern file for
multiple paths" error sits in a branch reachable only when the path list is
empty, which the earlier empty-path check already rejects. -/
theorem c9_relative_anchor_bug :
    (createArchive (fun f => f = "/a/pats.txt".data) "/home/u".data false
        "repo".data
        ⟨"2026-10-12".data, ["/a".data, "/b".data], none, some "pats.txt".data,
          none, none⟩ =
      .ok
        { compressionArg := none
          patternsFrom := some "/a/pats.txt".data
          excludeFrom := none
          target := "repo::2026-10-12".data
          srcPaths := ["/a".data, "/b".data]
          dryRun := false }) ∧
    (∀ (isFile : Str → Bool) (home : Str) (dryRun : Bool) (loc : Str)
        (arch : ArchiveCfg),
      arch.paths = [] →
      createArchive isFile home dryRun loc arch = .error "No paths specified") ∧
    (createArchive (fun _ => false) "/home/u".data false "repo".data
        ⟨"2026-10-12".data, ["/a".data, "/b".data], none, some "pats.txt".data,
          none, none⟩ =
      .error "relative pattern file does not exist") := by
  refine ⟨rfl, ?_, rfl⟩
  intro isFile home dryRun loc arch hp
  simp [createArchive, hp]

/-- Witness for C9's universally quantified conjunct at a concrete empty-path
archive. -/
theorem c9_relative_anchor_bug_witness :
    createArchive (fun _ => false) "/home/u".data false "repo".data
        ⟨"2026-10-12".data, [], none, some "pats.txt".data, none, none⟩ =
      .error "No paths specified" :=
  c9_relative_anchor_bug.2.1 (fun _ => false) "/home/u".data false "repo".data
    ⟨"2026-10-12".data, [], none, some "pats.txt".data, none, none⟩ rfl

/-! Job/template body parsing (`impl ConfigProperty for BackupConfig`) and the
template preparation of `impl ConfigProperty for Vec<(Repo, Archive)>`. -/

/-- Elementwise parse of a TOML array (`collect` over `Result`). -/
def parseVecElems (pf : Toml → Except ConfigError α) :
    List Toml → Except ConfigError (List α)
  | [] => .ok []
  | v :: rest =>
    match pf v with
    | .error e => .error e
    | .ok x =>
      match parseVecElems pf rest with
      | .error e => .error e
      | .ok xs => .ok (x :: xs)

/-- Rust `impl ConfigProperty for Vec<T>`: a single value parses to a
singleton, else an array parses elementwise. -/
def parseVec (pf : Toml → Except ConfigError α) (value : Toml) :
    Except ConfigError (List α) :=
  match pf value with
  | .ok v => .ok [v]
  | .error _ =>
    match value with
    | .arr a => parseVecElems pf a
    | _ => .error (.typeError (some "array") (some (typeStr value)))

/-- Two's-complement truncation of an `i64` into an `i32` (`as i32`). -/
def i32wrap (n : Int) : Int :=
  Int.emod (n + 2147483648) 4294967296 - 2147483648

/-- The `passphrase`/`passcommand` match inside `BackupConfig`'s parser,
including the mutually-exclusive-keys error. -/
def parsePassphraseFields (m : List (Str × Toml)) :
    Except ConfigError (Option Passphrase) :=
  match tomlGet m "passphrase".data, tomlGet m "passcommand".data with
  | some (.str p), none => .ok (some (.pass p))
  | some (.int fd), none => .ok (some (.fd (i32wrap fd)))
  | none, some (.str cmd) => .ok (some (.command cmd))
  | some _, some _ => .error (.exclusiveKeys "passphrase" "passcommand")
  | _, _ => .ok none

/-- The tail of `BackupConfig`'s parser once the template name is known. -/
def parseBackupConfigRest (m : List (Str × Toml)) (tmpl : Str) :
    Except ConfigError BackupConfig :=
  match fromMap parseRepoConfigProp m "repository".data with
  | .error e => .error e
  | .ok repo =>
    match parsePassphraseFields m with
    | .error e => .error e
    | .ok passphrase =>
      match fromMap (parseVec parsePathProp) m "path".data with
      | .error e => .error e
      | .ok pathsOpt =>
        match fromMap parseCompressionProp m "compression".data with
        | .error e => .error e
        | .ok compression =>
          match fromMap parsePathProp m "pattern_file".data with
          | .error e => .error e
          | .ok pattern_file =>
            match fromMap parsePathProp m "exclude_file".data with
            | .error e => .error e
            | .ok exclude_file =>
              .ok
                { template := some tmpl
                  repo := repo
                  passphrase := passphrase
                  paths := pathsOpt.getD []
                  compression := compression
                  pattern_file := pattern_file
                  exclude_file := exclude_file }

/-- Rust `impl ConfigProperty for BackupConfig`: the `template` key defaults
to `"default"` when absent. -/
def parseBackupConfig (value : Toml) : Except ConfigError BackupConfig :=
  match value with
  | .table m =>
    match fromMap parseStringProp m "template".data with
    | .error e => .error e
    | .ok tmplOpt => parseBackupConfigRest m (tmplOpt.getD "default".data)
  | _ => .error (.typeError (some "table") (some (typeStr value)))

theorem parseBackupConfigRest_template {m : List (Str × Toml)} {tmpl : Str}
    {c : BackupConfig} (h : parseBackupConfigRest m tmpl = .ok c) :
    c.template = some tmpl := by
  unfold parseBackupConfigRest at h
  rcases h1 : fromMap parseRepoConfigProp m "repository".data with e | repo <;>
    rw [h1] at h
  · exact Except.noConfusion h
  rcases h2 : parsePassphraseFields m with e | pp <;> rw [h2] at h
  · exact Except.noConfusion h
  rcases h3 : fromMap (parseVec parsePathProp) m "path".data with e | po <;>
    rw [h3] at h
  · exact Except.noConfusion h
  rcases h4 : fromMap parseCompressionProp m "compression".data with e | comp <;>
    rw [h4] at h
  · exact Except.noConfusion h
  rcases h5 : fromMap parsePathProp m "pattern_file".data with e | pat <;>
    rw [h5] at h
  · exact Except.noConfusion h
  rcases h6 : fromMap parsePathProp m "exclude_file".data with e | excl <;>
    rw [h6] at h
  · exact Except.noConfusion h
  have hc := Except.ok.inj h
  rw [← hc]

theorem lookupTmpl_mem {t : Str} {ts : List (Str × BackupConfig)}
    {c : BackupConfig} (h : lookupTmpl t ts = some c) : (t, c) ∈ ts := by
  induction ts with
  | nil => cases h
  | cons p rest ih =>
    obtain ⟨n, c0⟩ := p
    unfold lookupTmpl at h
    by_cases hn : n = t
    · rw [if_pos hn] at h
      have := Option.some.inj h
      subst hn
      rw [this]
      exact List.mem_cons_self _ _
    · rw [if_neg hn] at h
      exact List.mem_cons_of_mem _ (ih h)

theorem flatten_map_ne_nil (l : List Str) (f : Str → List Str)
    (hl : l ≠ []) (hf : ∀ p, f p ≠ []) : (l.map f).flatten ≠ [] := by
  cases l with
  | nil => exact absurd rfl hl
  | cons x xs =>
    simp only [List.map_cons, List.flatten_cons]
    intro hcontra
    rcases List.append_eq_nil.mp hcontra with ⟨h1, -⟩
    exact hf x h1

theorem resolveWith_paths_ne_nil (job tm : BackupConfig) (h : tm.paths ≠ []) :
    (resolveWith job tm).paths ≠ [] := by
  show (if job.paths.isEmpty then tm.paths
    else (job.paths.map
      (fun p => if p = "...".data then tm.paths else [p])).flatten) ≠ []
  by_cases hje : job.paths.isEmpty
  · rw [if_pos hje]
    exact h
  · rw [if_neg hje]
    apply flatten_map_ne_nil
    · intro hc
      exact hje (by rw [hc]; rfl)
    · intro p
      by_cases hp : p = "...".data
      · rw [if_pos hp]
        exact h
      · rw [if_neg hp]
        exact List.cons_ne_nil _ _

theorem resolveWith_exclude_isSome (job tm : BackupConfig)
    (h : tm.exclude_file.isSome = true) :
    (resolveWith job tm).exclude_file.isSome = true := by
  show (match job.exclude_file with
    | none => tm.exclude_file
    | some f => some f).isSome = true
  cases job.exclude_file with
  | none => exact h
  | some f => rfl

theorem setDefaults_good (c : BackupConfig) :
    (setDefaults c).template = none ∧ (setDefaults c).paths ≠ [] ∧
      (setDefaults c).exclude_file.isSome = true := by
  refine ⟨rfl, ?_, ?_⟩
  · exact resolveWith_paths_ne_nil _ _ (by decide)
  · exact resolveWith_exclude_isSome _ _ rfl

theorem prepareTemplates_good (ts : List (Str × BackupConfig))
    (hsome : ∀ p ∈ ts, p.2.template.isSome = true) :
    ∀ p ∈ prepareTemplates ts, p.2.template = none →
      p.2.paths ≠ [] ∧ p.2.exclude_file.isSome = true := by
  intro p hp hnone
  unfold prepareTemplates at hp
  rcases List.mem_append.mp hp with hp | hp
  · rcases List.mem_map.mp hp with ⟨q, hq, heq⟩
    by_cases hd : q.1 = "default".data
    · rw [if_pos hd] at heq
      rw [← heq] at hnone ⊢
      exact (setDefaults_good q.2).2
    · rw [if_neg hd] at heq
      rw [← heq] at hnone
      have := hsome q hq
      rw [hnone] at this
      cases this
  · by_cases hany : ts.any (fun nc => nc.1 = "default".data)
    · rw [if_pos hany] at hp
      cases hp
    · rw [if_neg hany] at hp
      rcases List.mem_singleton.mp hp with rfl
      exact ⟨by decide, rfl⟩

theorem resolveFuel_ok_good (ts : List (Str × BackupConfig))
    (hts : ∀ p ∈ ts, p.2.template = none →
      p.2.paths ≠ [] ∧ p.2.exclude_file.isSome = true) :
    ∀ (fuel : Nat) (job res : BackupConfig), job.template.isSome = true →
      resolveFuel fuel job ts = some (.ok res) →
      res.template = none ∧ res.paths ≠ [] ∧ res.exclude_file.isSome = true := by
  intro fuel
  induction fuel with
  | zero =>
    intro job res hj h
    cases h
  | succ fuel ih =>
    intro job res hj h
    unfold resolveFuel at h
    rcases hjt : job.template with _ | t
    · rw [hjt] at hj
      cases hj
    · rw [hjt] at h
      replace h : (match lookupTmpl t ts with
          | none => some (Except.error (ConfigError.missingTemplate t))
          | some tm => resolveFuel fuel (resolveWith job tm) ts) =
          some (Except.ok res) := h
      rcases hlk : lookupTmpl t ts with _ | tm
      · rw [hlk] at h
        simp at h
      · rw [hlk] at h
        replace h : resolveFuel fuel (resolveWith job tm) ts =
            some (Except.ok res) := h
        rcases htm : tm.template with _ | t2
        · have hmerged : (resolveWith job tm).template = none := htm
          cases fuel with
          | zero =>
            unfold resolveFuel at h
            cases h
          | succ fuel2 =>
            unfold resolveFuel at h
            rw [hmerged] at h
            replace h : some (Except.ok (resolveWith job tm)) =
                some (Except.ok res) := h
            have hres : resolveWith job tm = res :=
              Except.ok.inj (Option.some.inj h)
            have hgood := hts (t, tm) (lookupTmpl_mem hlk) htm
            rw [← hres]
            exact ⟨hmerged, resolveWith_paths_ne_nil _ _ hgood.1,
              resolveWith_exclude_isSome _ _ hgood.2⟩
        · have hmerged : (resolveWith job tm).template = some t2 := htm
          exact ih (resolveWith job tm) res (by rw [hmerged]; rfl) h

/-! Claim C10: defaulting of the template name and injection of the default
template. -/

/-- C10 (confirmed): every job or template body whose `template` key is absent
parses with the template name `"default"`; every prepared template entry named
`"default"` (the declared one after `set_defaults`, or the injected synthetic
one) carries no template link and has nonempty paths and an exclude file; and
consequently every job resolution that succeeds against a prepared template
list (whose declared bodies, being parsed, all carry a template name) ends
with no template link, nonempty paths and an exclude file — the default
template's fields reach every job whose own chain left those fields absent. -/
theorem c10_default_template_defaulting :
    (∀ (m : List (Str × Toml)) (c : BackupConfig),
      tomlGet m "template".data = none →
      parseBackupConfig (.table m) = .ok c → c.template = some "default".data) ∧
    (∀ (ts : List (Str × BackupConfig)) (n : Str) (c : BackupConfig),
      (n, c) ∈ prepareTemplates ts → n = "default".data →
      (∀ p ∈ ts, p.2.template.isSome = true) →
      c.template = none ∧ c.paths ≠ [] ∧ c.exclude_file.isSome = true) ∧
    (∀ (ts : List (Str × BackupConfig)),
      (∀ p ∈ ts, p.2.template.isSome = true) →
      ∀ (fuel : Nat) (job res : BackupConfig), job.template.isSome = true →
        resolveFuel fuel job (prepareTemplates ts) = some (.ok res) →
        res.template = none ∧ res.paths ≠ [] ∧
          res.exclude_file.isSome = true) := by
  refine ⟨?_, ?_, ?_⟩
  · intro m c hm hc
    unfold parseBackupConfig at hc
    replace hc : (match fromMap parseStringProp m "template".data with
        | Except.error e => Except.error e
        | Except.ok tmplOpt =>
          parseBackupConfigRest m (tmplOpt.getD "default".data)) =
        Except.ok c := hc
    have h1 : fromMap parseStringProp m "template".data = .ok none := by
      unfold fromMap
      rw [hm]
    rw [h1] at hc
    replace hc : parseBackupConfigRest m "default".data = Except.ok c := hc
    exact parseBackupConfigRest_template hc
  · intro ts n c hmem hn hsome
    unfold prepareTemplates at hmem
    rcases List.mem_append.mp hmem with hp | hp
    · rcases List.mem_map.mp hp with ⟨q, hq, heq⟩
      by_cases hd : q.1 = "default".data
      · rw [if_pos hd] at heq
        have hc : c = setDefaults q.2 := by
          have := congrArg Prod.snd heq
          exact this.symm
        rw [hc]
        exact setDefaults_good q.2
      · rw [if_neg hd] at heq
        exfalso
        apply hd
        rw [← hn]
        exact congrArg Prod.fst heq
    · by_cases hany : ts.any (fun nc => nc.1 = "default".data)
      · rw [if_pos hany] at hp
        cases hp
      · rw [if_neg hany] at hp
        have hpair := List.mem_singleton.mp hp
        rw [Prod.mk.injEq] at hpair
        rw [hpair.2]
        exact ⟨rfl, by decide, rfl⟩
  · intro ts hsome fuel job res hj h
    exact resolveFuel_ok_good (prepareTemplates ts)
      (prepareTemplates_good ts hsome) fuel job res hj h

/-- Witness for C10: the empty body parses with template name `default`, and a
job naming `default` against no declared templates resolves (with the injected
synthetic default) to the default paths and exclude file. -/
theorem c10_default_template_defaulting_witness :
    (parseBackupConfig (.table []) =
      .ok ⟨some "default".data, none, none, [], none, none, none⟩ ∧
      (⟨some "default".data, none, none, [], none, none, none⟩ :
        BackupConfig).template = some "default".data) ∧
    (resolveFuel 2 ⟨some "default".data, none, none, [], none, none, none⟩
        (prepareTemplates []) =
      some (.ok ⟨none, none, none, ["~".data], none, none,
        some ".borgignore".data⟩) ∧
      ((⟨none, none, none, ["~".data], none, none,
          some ".borgignore".data⟩ : BackupConfig).template = none ∧
        (⟨none, none, none, ["~".data], none, none,
          some ".borgignore".data⟩ : BackupConfig).paths ≠ [] ∧
        (⟨none, none, none, ["~".data], none, none,
          some ".borgignore".data⟩ : BackupConfig).exclude_file.isSome = true)) :=
  ⟨⟨rfl, c10_default_template_defaulting.1 []
      ⟨some "default".data, none, none, [], none, none, none⟩ rfl rfl⟩,
    ⟨rfl, c10_default_template_defaulting.2.2 [] (by intro p hp; cases hp) 2
      ⟨some "default".data, none, none, [], none, none, none⟩
      ⟨none, none, none, ["~".data], none, none, some ".borgignore".data⟩
      rfl rfl⟩⟩
